import Mathlib

/-!
Verification model of the `onkernel/kernel-images` in-instance control plane.

This file is a shallow embedding, in Lean 4, of the parts of the Go source
that the verified properties are about:

* `server/lib/recorder/ffmpeg.go` — the FFmpeg recording engine
  (`FFmpegRecorder`, `Start`, `Stop`/`gracefulShutdown`, `ForceStop`,
  `IsRecording`, `Recording`, `waitForCommand`, `waitForChan`, and the
  `FFmpegManager` registry).
* `server/cmd/api/api/api.go` — the HTTP handlers `StartRecording`,
  `StopRecording`, `DownloadRecording`.
* `server/lib/devtoolsproxy/proxy.go` — the upstream manager's `tailLoop`
  backoff behaviour and `setCurrent` publication rule.
* the Chromium launch wrapper (`main` of the flag-merging launcher) — the
  runtime flag overlay merge (`parseFlags`/`parseTokenStream`/`union` and
  the final combine/dedupe).
* `server/lib/scaletozero` — the debounced idle controller (its
  implementation file is not part of the source snapshot; it is modelled
  from the specification, see the doc comments there).

Concurrency is modelled by making scheduling decisions explicit inputs:
subprocess-exit timing is an `ExitOracle`, the waiter goroutine's
completion is an explicit event, and handler runs are sequential.
Machine integers are modelled as `Int`/`Nat` (no overflow is relevant:
the Go values involved are exit codes, counters, sizes and millisecond
durations, all far from the 64-bit range).
-/

/-! ## String helpers

Kernel-computable embeddings of the Go standard-library string functions
used by the flag merge: `strings.Split` (single-character separator),
`strings.TrimSpace`, `strings.HasPrefix`, `strings.TrimPrefix`, and
`strings.Join`.
-/

def splitOnCharAux (c : Char) : List Char → List Char → List (List Char)
  | [], acc => [acc.reverse]
  | x :: xs, acc =>
    if x = c then acc.reverse :: splitOnCharAux c xs []
    else splitOnCharAux c xs (x :: acc)

/-- `strings.Split s (String.singleton c)`: split on every occurrence of `c`. -/
def splitOnChar (c : Char) (s : String) : List String :=
  (splitOnCharAux c s.toList []).map (fun cs => String.mk cs)

/-- `strings.TrimSpace`: drop leading and trailing whitespace. -/
def trimStr (s : String) : String :=
  String.mk (((s.toList.dropWhile Char.isWhitespace).reverse.dropWhile Char.isWhitespace).reverse)

/-- `strings.HasPrefix s pre`. -/
def strStartsWith (s pre : String) : Bool := pre.toList.isPrefixOf s.toList

/-- Drop the first `n` characters; with `n` the length of a known prefix this
is `strings.TrimPrefix`. -/
def dropStr (s : String) (n : Nat) : String := String.mk (s.toList.drop n)

/-! ## Recorder state (`server/lib/recorder/ffmpeg.go`)

The mutable fields of the Go struct `FFmpegRecorder` that the verified
operations read or write.  `cmd` mirrors the `*exec.Cmd` pointer: `none`
until `Start` runs; after `Start` it is `some c` where `c.process` mirrors
`cmd.Process` (`none` exactly when `cmd.Start()` failed to spawn).
`exitCode` starts at the Go zero value `0`, is set to `-1` at the top of
`Start`, and is set by the waiter to `cmd.ProcessState.ExitCode()` when the
subprocess terminates.  `exitedClosed` mirrors whether the one-shot
`exited` channel has been closed; `waiterPending` records that the
`waitForCommand` goroutine has been launched and has not yet run its
completion block. -/

structure RecProcess where
  pid : Nat
deriving DecidableEq, Repr

structure RecCmd where
  process : Option RecProcess
deriving DecidableEq, Repr

structure FFmpegRecorder where
  cmd : Option RecCmd
  exitCode : Int
  waiterPending : Bool
  exitedClosed : Bool
deriving DecidableEq, Repr

/-- A freshly constructed recorder (`NewFFmpegRecorderFactory`): every field
is the Go zero value — in particular `exitCode = 0`. -/
def initialRecorder : FFmpegRecorder :=
  { cmd := none, exitCode := 0, waiterPending := false, exitedClosed := false }

/-- `IsRecording`: `fr.cmd != nil && fr.exitCode < 0`. -/
def isRecording (fr : FFmpegRecorder) : Bool :=
  fr.cmd.isSome && decide (fr.exitCode < 0)

/-! ## Graceful shutdown (`gracefulShutdown`, `waitForChan`)

The real `waitForChan` blocks on the `exited` channel with a timeout; the
timing of the channel's closure relative to the phase loop is a scheduling
fact, supplied here as an `ExitOracle`: `closedBefore i` is whether the
`exited` channel is observed closed by the non-blocking `select` at the top
of phase `i`, and `closedDuringWait i` is whether `waitForChan` at phase
`i` observes the closure within that phase's timeout. -/

inductive Signal where
  | SIGCONT | SIGINT | SIGTERM | SIGKILL
deriving DecidableEq, Repr

structure Phase where
  name : String
  signals : List Signal
  timeoutMs : Nat
deriving DecidableEq, Repr

/-- The escalating shutdown phases, exactly as in `gracefulShutdown`. -/
def shutdownPhases : List Phase :=
  [ { name := "interrupt", signals := [.SIGCONT, .SIGINT], timeoutMs := 5000 },
    { name := "terminate", signals := [.SIGTERM], timeoutMs := 2000 },
    { name := "kill", signals := [.SIGKILL], timeoutMs := 1000 } ]

structure ExitOracle where
  closedBefore : Nat → Bool
  closedDuringWait : Nat → Bool

/-- The `for _, phase := range phases` loop body of `gracefulShutdown`:
returns the list of `(pgid, signal)` pairs passed to `syscall.Kill`.  The
loop returns `nil` at the short-circuit `select` when the channel is
already closed, returns `nil` when `waitForChan` observes the closure
within the phase timeout, and after the last phase returns `nil`
regardless. -/
def runPhases (o : ExitOracle) (pgid : Int) : List Phase → Nat → List (Int × Signal)
  | [], _ => []
  | p :: rest, i =>
    if o.closedBefore i then []
    else
      p.signals.map (fun s => (pgid, s)) ++
        (if o.closedDuringWait i then [] else runPhases o pgid rest (i + 1))

/-- `gracefulShutdown`: the whole function.  The result is the sequence of
signals sent (on success) or the error.  All phase errors are swallowed;
the only error return is `"no recording to stop"`. -/
def gracefulShutdown (fr : FFmpegRecorder) (o : ExitOracle) :
    Except String (List (Int × Signal)) :=
  if 0 ≤ fr.exitCode then .ok []
  else
    match fr.cmd with
    | none => .error "no recording to stop"
    | some c =>
      match c.process with
      | none => .error "no recording to stop"
      | some p => .ok (runPhases o (-(p.pid : Int)) shutdownPhases 0)

/-- `ForceStop`.  `killFails` is whether `fr.cmd.Process.Kill()` returns an
error.  When `cmd != nil` but `cmd.Process == nil` the Go code dereferences
a nil pointer; that case is modelled as an error and is excluded by the
well-formedness hypothesis of every theorem that touches it. -/
def forceStop (fr : FFmpegRecorder) (killFails : Bool) : Except String Unit :=
  match fr.cmd with
  | none => .error "no recording in progress"
  | some c =>
    if 0 ≤ fr.exitCode then .ok ()
    else
      match c.process with
      | none => .error "nil pointer dereference"
      | some _ => if killFails then .error "failed to force kill process" else .ok ()

/-! ## Start and the waiter (`Start`, `waitForCommand`) -/

/-- What the environment does when `Start` spawns the encoder:
`cmd.Start()` fails outright (`fail`), or the subprocess starts with the
given pid and either survives the 500 ms early-exit window
(`earlyExit = none`) or terminates within it with the given exit code. -/
inductive SpawnOutcome where
  | fail
  | ok (pid : Nat) (earlyExit : Option Int)
deriving DecidableEq, Repr

/-- The completion block of `waitForCommand`: under the lock it stores the
exit code, marks the waiter done, and closes the `exited` channel. -/
def waiterDone (fr : FFmpegRecorder) (code : Int) : FFmpegRecorder :=
  { fr with exitCode := code, waiterPending := false, exitedClosed := true }

/-- `Start`.  Returns the state after the call together with the error, if
any.  Mirrors the source order: the `cmd != nil` guard first; then
`exitCode := -1` and a fresh `exited` channel; then `fr.cmd` is assigned
the new command object *before* `cmd.Start()` runs, so a spawn failure
leaves `cmd` non-nil with a nil `Process`.  On an early exit within
500 ms the waiter has already run and `Start` reports the startup
failure. -/
def startRec (fr : FFmpegRecorder) (sp : SpawnOutcome) :
    FFmpegRecorder × Option String :=
  if fr.cmd.isSome then (fr, some "recording already in progress")
  else
    let fr := { fr with exitCode := -1, exitedClosed := false }
    match sp with
    | .fail =>
      ({ fr with cmd := some { process := none } },
       some "failed to start ffmpeg process")
    | .ok pid earlyExit =>
      let fr := { fr with cmd := some { process := some { pid := pid } },
                          waiterPending := true }
      match earlyExit with
      | some code => (waiterDone fr code, some "failed to start ffmpeg process")
      | none => (fr, none)

/-! ## Recorder event traces

The operations that can touch a recorder's mutable fields over its
lifetime, as an explicit event alphabet.  `Stop`, `ForceStop` and
`Recording` read but never write the fields `isRecording` reads, so the
only state-changing events are `Start` calls and the waiter's completion
(the waiter fires at most once: it is guarded by `waiterPending`). -/

inductive RecEvent where
  | start (sp : SpawnOutcome)
  | waiter (code : Int)
  | stop
  | forceStopEv
  | recording
deriving DecidableEq, Repr

def stepEvent (fr : FFmpegRecorder) : RecEvent → FFmpegRecorder
  | .start sp => (startRec fr sp).1
  | .waiter code => if fr.waiterPending then waiterDone fr code else fr
  | .stop => fr
  | .forceStopEv => fr
  | .recording => fr

def runEvents (fr : FFmpegRecorder) (tr : List RecEvent) : FFmpegRecorder :=
  tr.foldl stepEvent fr

/-! ## Artifact fetch (`Recording`) and the registry (`FFmpegManager`) -/

/-- Metadata returned by `Recording` that the download handler uses. -/
structure RecordingMeta where
  size : Nat
deriving DecidableEq, Repr

/-- `Recording`: refuses while a recording is in progress, then opens the
output file.  `file` is the state of the output file on disk:
`none` if `os.Open` fails (file missing), `some size` otherwise. -/
def fetchRecording (fr : FFmpegRecorder) (file : Option Nat) :
    Except String RecordingMeta :=
  if isRecording fr then .error "recording still in progress, please call stop first"
  else
    match file with
    | none => .error "failed to open recording file"
    | some size => .ok { size := size }

/-- The `FFmpegManager` registry: an association from id to recorder state. -/
abbrev RecordManager : Type := List (String × FFmpegRecorder)

def getRecorder (rm : RecordManager) (id : String) : Option FFmpegRecorder :=
  match rm with
  | [] => none
  | (k, v) :: rest => if k = id then some v else getRecorder rest id

/-- `RegisterRecorder`: fails if an entry with the same id exists. -/
def registerRecorder (rm : RecordManager) (id : String) (fr : FFmpegRecorder) :
    Except String RecordManager :=
  match getRecorder rm id with
  | some _ => .error "recorder already exists"
  | none => .ok (rm ++ [(id, fr)])

/-- `DeregisterRecorder`: removes the entry for the recorder's id. -/
def deregisterRecorder (rm : RecordManager) (id : String) : RecordManager :=
  rm.filter (fun p => p.1 ≠ id)

/-- `ListActiveRecorders`: ids whose `IsRecording` is currently true. -/
def listActiveRecorders (rm : RecordManager) : List String :=
  (rm.filter (fun p => isRecording p.2)).map Prod.fst

/-! ## HTTP handlers (`server/cmd/api/api/api.go`) -/

/-- The id-defaulting done by each handler: use `"main"` when the request
carries no id or an empty id. -/
def resolveId (idOpt : Option String) : String :=
  match idOpt with
  | some s => if s = "" then "main" else s
  | none => "main"

inductive StartResp where
  | created201
  | conflict409 (message : String)
  | internal500 (message : String)
deriving DecidableEq, Repr

/-- `StartRecording`: create a recorder via the factory, register it, start
it; on a `Start` error the recorder is deregistered (the deferred
`DeregisterRecorder`) and a 500 is returned. -/
def startRecording (rm : RecordManager) (idOpt : Option String) (sp : SpawnOutcome) :
    RecordManager × StartResp :=
  let id := resolveId idOpt
  let rec0 := initialRecorder
  match registerRecorder rm id rec0 with
  | .error _ =>
    match getRecorder rm id with
    | some existing =>
      if isRecording existing then (rm, .conflict409 "recording already in progress")
      else (rm, .internal500 "failed to register recording")
    | none => (rm, .internal500 "failed to register recording")
  | .ok rm1 =>
    let (fr1, startErr) := startRec rec0 sp
    let rm2 := (deregisterRecorder rm1 id) ++ [(id, fr1)]
    match startErr with
    | some _ => (deregisterRecorder rm2 id, .internal500 "failed to start recording")
    | none => (rm2, .created201)

inductive StopResp where
  | ok200
  | bad400 (message : String)
deriving DecidableEq, Repr

/-- `StopRecording`: 400 when the id is unknown; 200 when the recorder is
not recording; otherwise run `ForceStop` or `Stop` and return 200
regardless — a stop error is only logged. -/
def stopRecording (rm : RecordManager) (idOpt : Option String)
    (force : Bool) (o : ExitOracle) (killFails : Bool) : StopResp :=
  let id := resolveId idOpt
  match getRecorder rm id with
  | none => .bad400 "no active recording to stop"
  | some fr =>
    if !isRecording fr then .ok200
    else
      let _stopResult : Except String Unit :=
        if force then forceStop fr killFails
        else (gracefulShutdown fr o).map (fun _ => ())
      .ok200

/-- `minRecordingSizeInBytes` from the download handler. -/
def minRecordingSizeInBytes : Nat := 100

inductive DownloadResp where
  | ok200 (size : Nat)
  | retry202 (retryAfter : Nat)
  | notFound404 (message : String)
  | internal500 (message : String)
deriving DecidableEq, Repr

/-- `DownloadRecording`: 404 when the id is unknown; 500 when
`rec.Recording` errors; otherwise 202 with `Retry-After: 300` when the
recording is still running and the file is at most
`minRecordingSizeInBytes`, else 200. -/
def downloadRecording (rm : RecordManager) (idOpt : Option String)
    (file : Option Nat) : DownloadResp :=
  let id := resolveId idOpt
  match getRecorder rm id with
  | none => .notFound404 "no recording found"
  | some fr =>
    match fetchRecording fr file with
    | .error _ => .internal500 "failed to get recording"
    | .ok meta =>
      if isRecording fr && decide (meta.size ≤ minRecordingSizeInBytes) then
        .retry202 300
      else .ok200 meta.size

/-! ## Idle / scale-to-zero controller (`server/lib/scaletozero`)

Modelled from the spec: the implementation file of
`scaletozero.DebouncedController` is not part of the source snapshot (only
its tests `scaletozero_test.go` and its callers are), so the controller is
modelled from §4.4 of the specification: a non-negative counter guarded by
a lock; `Disable` increments the counter and invokes the inner writer's
`Disable` (the `"+"` write) exactly on the 0→1 transition; `Enable`
decrements the counter if it is positive (no-op otherwise) and invokes the
inner writer's `Enable` (the `"-"` write) exactly on the 1→0 transition.
The inner writer is taken to succeed (the claims verified here involve no
write errors); `writes` records the inner invocations in order. -/

inductive WriteKind where
  | disableWrite
  | enableWrite
deriving DecidableEq, Repr

structure DebouncedController where
  count : Nat
  writes : List WriteKind
deriving DecidableEq, Repr

def DebouncedController.init : DebouncedController := { count := 0, writes := [] }

/-- Modelled from the spec: `Disable` of the debounced controller. -/
def DebouncedController.disable (c : DebouncedController) : DebouncedController :=
  if c.count = 0 then { count := 1, writes := c.writes ++ [.disableWrite] }
  else { count := c.count + 1, writes := c.writes }

/-- Modelled from the spec: `Enable` of the debounced controller. -/
def DebouncedController.enable (c : DebouncedController) : DebouncedController :=
  if c.count = 0 then c
  else if c.count = 1 then { count := 0, writes := c.writes ++ [.enableWrite] }
  else { count := c.count - 1, writes := c.writes }

/-! ## DevTools upstream manager (`server/lib/devtoolsproxy/proxy.go`)

The claims about the tail loop concern the sleep between tail iterations,
so a tail session (`runTailOnce`) is abstracted by the list of results of
matching each scanned line against `devtoolsListeningRegexp`: `some url`
for a line whose capture group is `url`, `none` for a non-matching line.
`runTailOnce` has no return value in the source and no access to the
`backoff` variable of `tailLoop`; its only effect is `setCurrent` on
matched lines. -/

/-- `setCurrent`: store the url only if non-empty and different. -/
def setCurrent (cur url : String) : String :=
  if url ≠ "" ∧ url ≠ cur then url else cur

/-- One tail session's effect on the published url. -/
def runTailOnce (cur : String) (session : List (Option String)) : String :=
  session.foldl
    (fun c l => match l with
      | some url => setCurrent c url
      | none => c)
    cur

structure TailState where
  backoffMs : Nat
  current : String
deriving DecidableEq, Repr

/-- `tailLoop` starts with `backoff := 250 * time.Millisecond`. -/
def initialTailState : TailState := { backoffMs := 250, current := "" }

/-- One iteration of the `for` loop in `tailLoop`: run a tail session,
sleep `backoff`, then double the backoff if it is below the 2 s cap.
Returns the new state and the duration (ms) of the sleep performed. -/
def tailLoopStep (s : TailState) (session : List (Option String)) :
    TailState × Nat :=
  ({ backoffMs := if s.backoffMs < 2000 then s.backoffMs * 2 else s.backoffMs,
     current := runTailOnce s.current session },
   s.backoffMs)

/-- The sleeps performed by `tailLoop` across a list of tail sessions
(the loop runs until cancelled; a finite prefix of sessions yields the
corresponding finite list of sleeps). -/
def tailLoopSleeps : TailState → List (List (Option String)) → List Nat
  | _, [] => []
  | s, session :: rest =>
    let (s', d) := tailLoopStep s session
    d :: tailLoopSleeps s' rest

/-! ## Chromium flag overlay merge (the launcher's `main`)

Embeds `parseTokenStream`, `appendCSVInto`, `union` and the final
combine/dedupe of the flag-merging Chromium launcher, operating on token
lists (the output of `parseFlags`). -/

def loadExtEq : String := "--load-extension="
def exceptEq : String := "--disable-extensions-except="
def disableExtTok : String := "--disable-extensions"

/-- The items `appendCSVInto` appends for one CSV value: split on commas,
trim each part, skip empties. -/
def csvItems (csv : String) : List String :=
  ((splitOnChar ',' csv).map trimStr).filter (fun p => p ≠ "")

/-- `appendCSVInto`. -/
def appendCSVInto (dst : List String) (csv : String) : List String :=
  dst ++ csvItems csv

structure ParsedStream where
  nonExt : List String
  load : List String
  exceptList : List String
  disableAll : String
deriving DecidableEq, Repr

/-- The body of `parseTokenStream`'s `switch` for one token. -/
def streamStep (st : ParsedStream) (tok : String) : ParsedStream :=
  if strStartsWith tok loadExtEq then
    { st with load := appendCSVInto st.load (dropStr tok loadExtEq.toList.length) }
  else if strStartsWith tok exceptEq then
    { st with exceptList := appendCSVInto st.exceptList (dropStr tok exceptEq.toList.length) }
  else if tok = disableExtTok then
    { st with disableAll := tok }
  else
    { st with nonExt := st.nonExt ++ [tok] }

def parseTokenStreamAux (st : ParsedStream) : List String → ParsedStream
  | [] => st
  | tok :: rest => parseTokenStreamAux (streamStep st tok) rest

/-- `parseTokenStream`. -/
def parseTokenStream (tokens : List String) : ParsedStream :=
  parseTokenStreamAux { nonExt := [], load := [], exceptList := [], disableAll := "" } tokens

/-- First-occurrence dedupe skipping empty strings: the accumulation
pattern shared by `union` and the final combine loop of `main`. -/
def dedupeSkipEmptyAux (acc : List String) : List String → List String
  | [] => acc
  | x :: xs =>
    if x = "" ∨ x ∈ acc then dedupeSkipEmptyAux acc xs
    else dedupeSkipEmptyAux (acc ++ [x]) xs

def dedupeSkipEmpty (l : List String) : List String := dedupeSkipEmptyAux [] l

/-- `union`: merge two lists, dropping empties and duplicates, preserving
first occurrence. -/
def unionTokens (base rt : List String) : List String :=
  dedupeSkipEmpty (base ++ rt)

/-- `strings.Join parts ","`. -/
def joinComma (parts : List String) : String := String.intercalate "," parts

/-- The flag-merge portion of the launcher's `main` (buckets → override
semantics → combine and dedupe), as a function of the base and runtime
(overlay) token lists. -/
def mergeFlags (baseTokens runtimeTokens : List String) : List String :=
  let b := parseTokenStream baseTokens
  let r := parseTokenStream runtimeTokens
  let mergedLoad := unionTokens b.load r.load
  let mergedExcept := unionTokens b.exceptList r.exceptList
  let extFlags : List String :=
    if r.disableAll ≠ "" then [r.disableAll]
    else
      (if b.disableAll ≠ "" ∧ r.load = [] then [b.disableAll]
       else if mergedLoad ≠ [] then [loadExtEq ++ joinComma mergedLoad]
       else []) ++
      (if mergedExcept ≠ [] then [exceptEq ++ joinComma mergedExcept] else [])
  dedupeSkipEmpty (b.nonExt ++ r.nonExt ++ extFlags)

/-! ## Concrete sample states and oracles used by closed theorems -/

/-- An oracle for a subprocess that never exits during the shutdown. -/
def noExitOracle : ExitOracle :=
  { closedBefore := fun _ => false, closedDuringWait := fun _ => false }

/-- A recorder in the Running state: subprocess spawned (pid 7), exit code
not yet observed. -/
def sampleRunningRecorder : FFmpegRecorder :=
  { cmd := some { process := some { pid := 7 } }, exitCode := -1,
    waiterPending := true, exitedClosed := false }

/-- The state predicate "the recording has been observed to stop": the
command object exists, a non-negative exit code has been recorded and the
waiter has completed.  Every recorder operation leaves such a state
unchanged. -/
def stoppedState (fr : FFmpegRecorder) : Prop :=
  fr.cmd.isSome = true ∧ 0 ≤ fr.exitCode ∧ fr.waiterPending = false

/-- Recorder-state well-formedness used to exclude the nil-`Process`
dereference paths: whenever the command object exists, the spawn
succeeded.  Holds for every state reachable without a failed spawn. -/
def wellFormedRec (fr : FFmpegRecorder) : Prop :=
  (fr.cmd = none → 0 ≤ fr.exitCode ∧ fr.waiterPending = false) ∧
  (∀ c, fr.cmd = some c → c.process.isSome = true)

/-- A CSV value is in normal form when re-splitting, trimming, dropping
empties, deduplicating and re-joining it reproduces it. -/
def csvNormal (v : String) : Prop :=
  joinComma (dedupeSkipEmpty (csvItems v)) = v

/-! # Theorems -/

/-! ## Helper lemmas -/

theorem mem_dedupeSkipEmptyAux (x : String) :
    ∀ (l acc : List String),
      x ∈ dedupeSkipEmptyAux acc l ↔ x ∈ acc ∨ (x ∈ l ∧ x ≠ "") := by
  intro l
  induction l with
  | nil => intro acc; simp [dedupeSkipEmptyAux]
  | cons y ys ih =>
    intro acc
    by_cases hy : y = "" ∨ y ∈ acc
    · rw [dedupeSkipEmptyAux, if_pos hy, ih]
      constructor
      · rintro (h | ⟨h1, h2⟩)
        · exact Or.inl h
        · exact Or.inr ⟨List.mem_cons_of_mem _ h1, h2⟩
      · rintro (h | ⟨h1, h2⟩)
        · exact Or.inl h
        · rcases List.mem_cons.mp h1 with h1 | h1
          · subst h1
            rcases hy with hy | hy
            · exact absurd hy h2
            · exact Or.inl hy
          · exact Or.inr ⟨h1, h2⟩
    · rw [dedupeSkipEmptyAux, if_neg hy, ih]
      push_neg at hy
      constructor
      · rintro (h | ⟨h1, h2⟩)
        · rcases List.mem_append.mp h with h | h
          · exact Or.inl h
          · rcases List.mem_singleton.mp h with rfl
            exact Or.inr ⟨List.mem_cons_self _ _, hy.1⟩
        · exact Or.inr ⟨List.mem_cons_of_mem _ h1, h2⟩
      · rintro (h | ⟨h1, h2⟩)
        · exact Or.inl (List.mem_append.mpr (Or.inl h))
        · rcases List.mem_cons.mp h1 with h1 | h1
          · subst h1
            exact Or.inl (List.mem_append.mpr (Or.inr (List.mem_singleton.mpr rfl)))
          · exact Or.inr ⟨h1, h2⟩

theorem mem_dedupeSkipEmpty (x : String) (l : List String) :
    x ∈ dedupeSkipEmpty l ↔ x ∈ l ∧ x ≠ "" := by
  rw [dedupeSkipEmpty, mem_dedupeSkipEmptyAux]
  simp

/-! ## Claim C1: graceful shutdown phase structure -/

/-- Claim C1: a graceful `Stop` on a recorder whose subprocess has been
started and has not yet exited performs the three escalating phases
against the negated process-group id — `SIGCONT` then `SIGINT` with a 5 s
wait, then `SIGTERM` with a 2 s wait, then `SIGKILL` with a 1 s wait —
advancing only while the `exited` signal has not fired, returning success
at the first phase whose wait (or whose entry check) observes the signal,
and returning success unconditionally after phase 3; on a recorder that
has already exited it is a no-op success. -/
theorem gracefulShutdown_three_phases (fr : FFmpegRecorder) (o : ExitOracle)
    (pid : Nat) (hcmd : fr.cmd = some { process := some { pid := pid } }) :
    (0 ≤ fr.exitCode → gracefulShutdown fr o = .ok []) ∧
    (fr.exitCode < 0 →
      gracefulShutdown fr o = .ok (
        if o.closedBefore 0 then []
        else [(-(pid : Int), .SIGCONT), (-(pid : Int), .SIGINT)] ++
          (if o.closedDuringWait 0 then []
           else if o.closedBefore 1 then []
           else [(-(pid : Int), .SIGTERM)] ++
             (if o.closedDuringWait 1 then []
              else if o.closedBefore 2 then []
              else [(-(pid : Int), .SIGKILL)])))) ∧
    shutdownPhases.map Phase.signals = [[.SIGCONT, .SIGINT], [.SIGTERM], [.SIGKILL]] ∧
    shutdownPhases.map Phase.timeoutMs = [5000, 2000, 1000] := by
  refine ⟨fun hex => ?_, fun hrun => ?_, by decide, by decide⟩
  · rw [gracefulShutdown, if_pos hex]
  · rw [gracefulShutdown, if_neg (by omega), hcmd]
    simp only [runPhases, shutdownPhases]
    cases hb0 : o.closedBefore 0 <;>
      cases hw0 : o.closedDuringWait 0 <;>
        cases hb1 : o.closedBefore 1 <;>
          cases hw1 : o.closedDuringWait 1 <;>
            cases hb2 : o.closedBefore 2 <;> simp [List.map]

theorem gracefulShutdown_three_phases_witness :
    sampleRunningRecorder.cmd = some { process := some { pid := 7 } } ∧
    ((0 ≤ sampleRunningRecorder.exitCode →
        gracefulShutdown sampleRunningRecorder noExitOracle = .ok []) ∧
     (sampleRunningRecorder.exitCode < 0 →
        gracefulShutdown sampleRunningRecorder noExitOracle = .ok (
          if noExitOracle.closedBefore 0 then []
          else [(-(7 : Int), .SIGCONT), (-(7 : Int), .SIGINT)] ++
            (if noExitOracle.closedDuringWait 0 then []
             else if noExitOracle.closedBefore 1 then []
             else [(-(7 : Int), .SIGTERM)] ++
               (if noExitOracle.closedDuringWait 1 then []
                else if noExitOracle.closedBefore 2 then []
                else [(-(7 : Int), .SIGKILL)])))) ∧
     shutdownPhases.map Phase.signals = [[.SIGCONT, .SIGINT], [.SIGTERM], [.SIGKILL]] ∧
     shutdownPhases.map Phase.timeoutMs = [5000, 2000, 1000]) :=
  ⟨rfl, gracefulShutdown_three_phases sampleRunningRecorder noExitOracle 7 rfl⟩

/-! ## Claim C2: download while recording with a tiny file -/

/-- Claim C2 (code bug): a download request for a recorder that is still
recording with an output file at most 100 bytes is answered with HTTP 500
("failed to get recording", because `Recording` refuses while in
progress), not with the intended 202/`TryAgainLater` — the 202 branch of
`DownloadRecording` is unreachable in a sequential run. -/
theorem downloadRecording_inProgress_tiny_is_500 :
    isRecording sampleRunningRecorder = true ∧
    (50 : Nat) ≤ minRecordingSizeInBytes ∧
    downloadRecording [("a", sampleRunningRecorder)] (some "a") (some 50) =
      .internal500 "failed to get recording" ∧
    downloadRecording [("a", sampleRunningRecorder)] (some "a") (some 50) ≠
      .retry202 300 := by
  refine ⟨by decide, by decide, by decide, by decide⟩

/-! ## Claim C10: StopRecording returns 200 even when stopping errors -/

/-- Claim C10: for every `StopRecording` request whose resolved recorder id
exists in the registry (as a well-formed recorder — no failed-spawn
nil-`Process` state, which could never be stopped through this handler
anyway since such recorders are deregistered), the handler answers
HTTP 200, for both graceful and force stop and for every outcome of the
underlying stop call; stop errors are only logged. -/
theorem stopRecording_known_id_200 (rm : RecordManager) (idOpt : Option String)
    (force : Bool) (o : ExitOracle) (killFails : Bool) (fr : FFmpegRecorder)
    (h : getRecorder rm (resolveId idOpt) = some fr)
    (hwf : wellFormedRec fr) :
    stopRecording rm idOpt force o killFails = .ok200 := by
  rw [stopRecording]
  simp only [h]
  split <;> rfl

theorem sampleRunningRecorder_wellFormed : wellFormedRec sampleRunningRecorder := by
  refine ⟨fun h => Option.noConfusion h, fun c hc => ?_⟩
  injection hc with h
  subst h
  rfl

theorem stopRecording_known_id_200_witness :
    (getRecorder [("main", sampleRunningRecorder)] (resolveId none) =
      some sampleRunningRecorder ∧ wellFormedRec sampleRunningRecorder) ∧
    stopRecording [("main", sampleRunningRecorder)] none false noExitOracle false =
      .ok200 :=
  ⟨⟨by decide, sampleRunningRecorder_wellFormed⟩,
   stopRecording_known_id_200 [("main", sampleRunningRecorder)] none false
     noExitOracle false sampleRunningRecorder (by decide)
     sampleRunningRecorder_wellFormed⟩

/-! ## Claim C4: debounced idle controller (modelled from the spec) -/

theorem writes_append_one_ne (w : List WriteKind) (a : WriteKind) :
    w ++ [a] ≠ w := by
  intro h
  have := congrArg List.length h
  simp at this

theorem disable_iter (n : Nat) (m : Nat) {w : List WriteKind} (hm : 1 ≤ m) :
    (DebouncedController.disable)^[n] { count := m, writes := w } =
      { count := m + n, writes := w } := by
  induction n generalizing m with
  | zero => simp
  | succ k ih =>
    rw [Function.iterate_succ_apply]
    have hm0 : ¬ m = 0 := by omega
    have hstep : DebouncedController.disable { count := m, writes := w } =
        { count := m + 1, writes := w } := by
      rw [DebouncedController.disable]
      simp [hm0]
    rw [hstep, ih (m + 1) (by omega)]
    have h : m + 1 + k = m + (k + 1) := by omega
    rw [h]

theorem enable_iter (n : Nat) {w : List WriteKind} :
    (DebouncedController.enable)^[n + 1] { count := n + 1, writes := w } =
      { count := 0, writes := w ++ [.enableWrite] } := by
  induction n with
  | zero =>
    rw [Function.iterate_one, DebouncedController.enable]
    simp
  | succ k ih =>
    rw [Function.iterate_succ_apply]
    have hstep : DebouncedController.enable { count := k + 2, writes := w } =
        { count := k + 1, writes := w } := by
      rw [DebouncedController.enable]
      simp
    rw [hstep, ih]

/-- Claim C4: N `Disable` calls followed by N `Enable` calls on the
debounced idle controller produce exactly one inner disable ("+") write
and exactly one inner enable ("-") write, in that order; the inner
disable fires exactly on the counter's 0→1 transition and the inner
enable exactly on the 1→0 transition. -/
theorem debounced_n_disables_n_enables (n : Nat) (hn : 1 ≤ n) :
    ((DebouncedController.enable)^[n]
        ((DebouncedController.disable)^[n] DebouncedController.init)).writes =
      [.disableWrite, .enableWrite] ∧
    (∀ c : DebouncedController,
      (DebouncedController.disable c).writes ≠ c.writes ↔ c.count = 0) ∧
    (∀ c : DebouncedController,
      (DebouncedController.enable c).writes ≠ c.writes ↔ c.count = 1) := by
  refine ⟨?_, fun c => ?_, fun c => ?_⟩
  · obtain ⟨m, rfl⟩ : ∃ m, n = m + 1 := ⟨n - 1, by omega⟩
    have hd : (DebouncedController.disable)^[m + 1] DebouncedController.init =
        { count := m + 1, writes := [.disableWrite] } := by
      rw [Function.iterate_succ_apply]
      have hstep : DebouncedController.disable DebouncedController.init =
          { count := 1, writes := [.disableWrite] } := rfl
      rw [hstep, disable_iter m 1 (by omega)]
      have h : 1 + m = m + 1 := by omega
      rw [h]
    rw [hd, enable_iter]
    simp
  · by_cases h0 : c.count = 0
    · rw [DebouncedController.disable, if_pos h0]
      exact ⟨fun _ => h0, fun _ => writes_append_one_ne c.writes _⟩
    · rw [DebouncedController.disable, if_neg h0]
      exact ⟨fun hne => absurd rfl hne, fun hc => absurd hc h0⟩
  · by_cases h0 : c.count = 0
    · rw [DebouncedController.enable, if_pos h0]
      exact ⟨fun hne => absurd rfl hne, fun hc => absurd hc (by omega)⟩
    · by_cases h1 : c.count = 1
      · rw [DebouncedController.enable, if_neg h0, if_pos h1]
        exact ⟨fun _ => h1, fun _ => writes_append_one_ne c.writes _⟩
      · rw [DebouncedController.enable, if_neg h0, if_neg h1]
        exact ⟨fun hne => absurd rfl hne, fun hc => absurd hc h1⟩

theorem debounced_n_disables_n_enables_witness :
    1 ≤ 3 ∧
    (((DebouncedController.enable)^[3]
        ((DebouncedController.disable)^[3] DebouncedController.init)).writes =
      [.disableWrite, .enableWrite] ∧
    (∀ c : DebouncedController,
      (DebouncedController.disable c).writes ≠ c.writes ↔ c.count = 0) ∧
    (∀ c : DebouncedController,
      (DebouncedController.enable c).writes ≠ c.writes ↔ c.count = 1)) :=
  ⟨by decide, debounced_n_disables_n_enables 3 (by decide)⟩

/-! ## Claim C5: tail-loop backoff -/

/-- Claim C5 (counterexample): the backoff is not reset on a successful
match of the DevTools listening line — after a first session that matched
(and published `ws://a`), the next sleep is 500 ms, not the starting
250 ms. -/
theorem tailLoop_no_reset_on_match :
    runTailOnce "" [some "ws://a"] = "ws://a" ∧
    tailLoopSleeps initialTailState [[some "ws://a"], []] = [250, 500] ∧
    tailLoopSleeps initialTailState [[some "ws://a"], []] ≠ [250, 250] := by
  refine ⟨by decide, by decide, by decide⟩

theorem tailLoopSleeps_closed_form (sessions : List (List (Option String)))
    (k : Nat) (cur : String) :
    tailLoopSleeps { backoffMs := min (250 * 2 ^ k) 2000, current := cur } sessions =
      (List.range sessions.length).map (fun n => min (250 * 2 ^ (k + n)) 2000) := by
  induction sessions generalizing k cur with
  | nil => simp [tailLoopSleeps]
  | cons s rest ih =>
    rw [tailLoopSleeps]
    have hnext : (if min (250 * 2 ^ k) 2000 < 2000 then min (250 * 2 ^ k) 2000 * 2
        else min (250 * 2 ^ k) 2000) = min (250 * 2 ^ (k + 1)) 2000 := by
      by_cases hk : k < 3
      · interval_cases k <;> decide
      · have h8 : (8 : Nat) ≤ 2 ^ k := by
          calc (8 : Nat) = 2 ^ 3 := by norm_num
          _ ≤ 2 ^ k := Nat.pow_le_pow_right (by norm_num) (by omega)
        have h2000 : (2000 : Nat) ≤ 250 * 2 ^ k := by
          calc (2000 : Nat) = 250 * 8 := by norm_num
          _ ≤ 250 * 2 ^ k := Nat.mul_le_mul_left 250 h8
        have h2000' : (2000 : Nat) ≤ 250 * 2 ^ (k + 1) := by
          calc (2000 : Nat) ≤ 250 * 2 ^ k := h2000
          _ ≤ 250 * 2 ^ (k + 1) := by
            apply Nat.mul_le_mul_left
            apply Nat.pow_le_pow_right (by norm_num) (by omega)
        rw [Nat.min_eq_right h2000, if_neg (by omega), Nat.min_eq_right h2000']
    rw [tailLoopStep]
    simp only
    rw [hnext, ih]
    simp only [List.length_cons, List.range_succ_eq_map, List.map_cons, List.map_map,
      Nat.add_zero, Function.comp_def]
    congr 2
    funext n
    have h : k + 1 + n = k + (n + 1) := by omega
    rw [h]

/-- Claim C5 (amended): the sleep between successive tail iterations
starts at 250 ms and each subsequent sleep is `min(2 × previous, 2 s)`;
the backoff is never reset — in particular a successful match of the
DevTools listening line leaves the progression unchanged (the sleep list
depends only on the number of tail sessions, not on their contents). -/
theorem tailLoop_backoff_progression (sessions : List (List (Option String))) :
    tailLoopSleeps initialTailState sessions =
      (List.range sessions.length).map (fun n => min (250 * 2 ^ n) 2000) := by
  have h0 : initialTailState =
      { backoffMs := min (250 * 2 ^ 0) 2000, current := "" } := by decide
  rw [h0, tailLoopSleeps_closed_form]
  apply List.map_congr_left
  intro n _
  simp

/-! ## Registry lemmas -/

theorem getRecorder_deregister_self (rm : RecordManager) (id : String) :
    getRecorder (deregisterRecorder rm id) id = none := by
  induction rm with
  | nil => rfl
  | cons p rest ih =>
    obtain ⟨k, v⟩ := p
    by_cases hk : k = id
    · simpa [deregisterRecorder, List.filter_cons, hk] using ih
    · simpa [deregisterRecorder, List.filter_cons, hk, getRecorder] using ih

theorem not_mem_listActive_deregister (rm : RecordManager) (id : String) :
    id ∉ listActiveRecorders (deregisterRecorder rm id) := by
  intro hmem
  rw [listActiveRecorders] at hmem
  obtain ⟨p, hp, hpe⟩ := List.mem_map.mp hmem
  have hpm : p ∈ deregisterRecorder rm id := List.mem_of_mem_filter hp
  have hpred := List.of_mem_filter hpm
  simp only [ne_eq, decide_not, Bool.not_eq_true', decide_eq_false_iff_not] at hpred
  exact hpred hpe

/-! ## Claim C3: spawn failure -/

/-- Claim C3 (counterexample): after a failed spawn, `Start` has returned
an error, yet `IsRecording` on the instance returns `true`, not `false`:
`fr.cmd` is assigned before `cmd.Start()` runs and `exitCode` stays at
`-1`, so the instance is not in the Idle state. -/
theorem start_spawn_fail_isRecording_true :
    (startRec initialRecorder .fail).2 = some "failed to start ffmpeg process" ∧
    isRecording (startRec initialRecorder .fail).1 = true := by
  exact ⟨by decide, by decide⟩

/-- Claim C3 (amended): when spawning the encoder subprocess fails,
`Start` returns a startup-failure error and the `StartRecording` handler
answers 500 and deregisters the recorder, so the id is absent from the
registry and from the active list; the recorder instance itself, however,
does not remain Idle: its `IsRecording` returns `true` (the command
object was stored before the spawn attempt and the exit code stays
`-1`). -/
theorem start_spawn_fail_behaviour (rm : RecordManager) (idOpt : Option String)
    (hfresh : getRecorder rm (resolveId idOpt) = none) :
    (startRecording rm idOpt .fail).2 = .internal500 "failed to start recording" ∧
    getRecorder (startRecording rm idOpt .fail).1 (resolveId idOpt) = none ∧
    resolveId idOpt ∉ listActiveRecorders (startRecording rm idOpt .fail).1 ∧
    isRecording (startRec initialRecorder .fail).1 = true := by
  have hreg : registerRecorder rm (resolveId idOpt) initialRecorder =
      .ok (rm ++ [(resolveId idOpt, initialRecorder)]) := by
    rw [registerRecorder, hfresh]
  have hmain : startRecording rm idOpt .fail =
      (deregisterRecorder ((deregisterRecorder (rm ++ [(resolveId idOpt, initialRecorder)])
          (resolveId idOpt)) ++ [(resolveId idOpt, (startRec initialRecorder .fail).1)])
        (resolveId idOpt),
       .internal500 "failed to start recording") := by
    rw [startRecording, hreg]
    rfl
  rw [hmain]

  refine ⟨rfl, getRecorder_deregister_self _ _, not_mem_listActive_deregister _ _, by decide⟩

theorem start_spawn_fail_behaviour_witness :
    getRecorder [("other", sampleRunningRecorder)] (resolveId (some "a")) = none ∧
    ((startRecording [("other", sampleRunningRecorder)] (some "a") .fail).2 =
        .internal500 "failed to start recording" ∧
     getRecorder (startRecording [("other", sampleRunningRecorder)] (some "a") .fail).1
        (resolveId (some "a")) = none ∧
     resolveId (some "a") ∉
        listActiveRecorders (startRecording [("other", sampleRunningRecorder)] (some "a") .fail).1 ∧
     isRecording (startRec initialRecorder .fail).1 = true) :=
  ⟨by decide,
   start_spawn_fail_behaviour [("other", sampleRunningRecorder)] (some "a") (by decide)⟩

/-! ## Claim C9: Stop on a never-started recorder -/

theorem wellFormed_step (s : FFmpegRecorder) (e : RecEvent)
    (hwf : wellFormedRec s) (hne : e ≠ RecEvent.start .fail) :
    wellFormedRec (stepEvent s e) := by
  obtain ⟨hnone, hsome⟩ := hwf
  cases e with
  | start sp =>
    rw [stepEvent, startRec]
    by_cases hc : s.cmd.isSome
    · rw [if_pos hc]
      exact ⟨hnone, hsome⟩
    · rw [if_neg hc]
      cases sp with
      | fail => exact absurd rfl hne
      | ok pid earlyExit =>
        cases earlyExit with
        | none =>
          refine ⟨fun h => by simp at h, fun c hc => ?_⟩
          simp only [Option.some.injEq] at hc
          rw [← hc]
          rfl
        | some code =>
          refine ⟨fun h => by simp [waiterDone] at h, fun c hc => ?_⟩
          simp only [waiterDone, Option.some.injEq] at hc
          rw [← hc]
          rfl
  | waiter code =>
    rw [stepEvent]
    by_cases hw : s.waiterPending
    · rw [if_pos hw]
      cases hcmd : s.cmd with
      | none =>
        have h2 := (hnone hcmd).2
        rw [hw] at h2
        exact absurd h2 (by decide)
      | some c =>
        refine ⟨fun h => by simp [waiterDone, hcmd] at h, fun c' hc' => ?_⟩
        simp only [waiterDone, hcmd, Option.some.injEq] at hc'
        rw [← hc']
        exact hsome c hcmd
    · rw [if_neg hw]
      exact ⟨hnone, hsome⟩
  | stop => exact ⟨hnone, hsome⟩
  | forceStopEv => exact ⟨hnone, hsome⟩
  | recording => exact ⟨hnone, hsome⟩

theorem wellFormed_run (s : FFmpegRecorder) (tr : List RecEvent)
    (hwf : wellFormedRec s) (hne : ∀ e ∈ tr, e ≠ RecEvent.start .fail) :
    wellFormedRec (runEvents s tr) := by
  induction tr generalizing s with
  | nil => exact hwf
  | cons e rest ih =>
    rw [runEvents, List.foldl_cons]
    exact ih (stepEvent s e)
      (wellFormed_step s e hwf (hne e (List.mem_cons_self e rest)))
      (fun e' he' => hne e' (List.mem_cons_of_mem e he'))

theorem wellFormed_shutdown_ok (s : FFmpegRecorder) (o : ExitOracle)
    (hwf : wellFormedRec s) : ∃ l, gracefulShutdown s o = .ok l := by
  obtain ⟨hnone, hsome⟩ := hwf
  rw [gracefulShutdown]
  by_cases hex : 0 ≤ s.exitCode
  · exact ⟨[], by rw [if_pos hex]⟩
  · rw [if_neg hex]
    cases hcmd : s.cmd with
    | none => exact absurd (hnone hcmd).1 hex
    | some c =>
      obtain ⟨p, hp⟩ := Option.isSome_iff_exists.mp (hsome c hcmd)
      refine ⟨runPhases o (-(p.pid : Int)) shutdownPhases 0, ?_⟩
      simp [hp]

/-- Claim C9 (counterexample): the "no recording to stop" branch is
reachable: after a `Start` whose spawn failed (a reachable state), the
recorder has a non-nil command object with a nil `Process` and exit code
`-1`, and a graceful `Stop` returns the "no recording to stop" error. -/
theorem stop_after_spawn_fail_errors :
    gracefulShutdown (runEvents initialRecorder [.start .fail]) noExitOracle =
      .error "no recording to stop" := by
  rfl

/-- Claim C9 (amended): a graceful `Stop` on a recorder that was never
started returns success — the freshly constructed recorder's zero-valued
exit code satisfies the already-exited check — and the "no recording to
stop" error branch is unreachable for every recorder state reachable
without a failed spawn (after a failed spawn the branch is reached). -/
theorem stop_never_started_noop (tr : List RecEvent) (o : ExitOracle)
    (hne : ∀ e ∈ tr, e ≠ RecEvent.start .fail) :
    gracefulShutdown initialRecorder o = .ok [] ∧
    ∃ l, gracefulShutdown (runEvents initialRecorder tr) o = .ok l := by
  have hwf0 : wellFormedRec initialRecorder := by
    refine ⟨fun _ => ⟨le_refl 0, rfl⟩, fun c hc => ?_⟩
    exact absurd hc (by simp [initialRecorder])
  exact ⟨rfl, wellFormed_shutdown_ok _ o (wellFormed_run initialRecorder tr hwf0 hne)⟩

theorem stop_never_started_noop_witness :
    (∀ e ∈ [RecEvent.start (.ok 5 none), RecEvent.waiter 0, RecEvent.stop],
       e ≠ RecEvent.start .fail) ∧
    (gracefulShutdown initialRecorder noExitOracle = .ok [] ∧
     ∃ l, gracefulShutdown
        (runEvents initialRecorder [RecEvent.start (.ok 5 none), RecEvent.waiter 0, RecEvent.stop])
        noExitOracle = .ok l) :=
  ⟨by decide,
   stop_never_started_noop [RecEvent.start (.ok 5 none), RecEvent.waiter 0, RecEvent.stop]
     noExitOracle (by decide)⟩

/-! ## Flag-merge lemmas -/

theorem parseAux_nonExt (ts : List String) (st : ParsedStream) :
    (parseTokenStreamAux st ts).nonExt =
      st.nonExt ++ ts.filter (fun t =>
        !strStartsWith t loadExtEq && !strStartsWith t exceptEq &&
          !(decide (t = disableExtTok))) := by
  induction ts generalizing st with
  | nil => simp [parseTokenStreamAux]
  | cons tok rest ih =>
    rw [parseTokenStreamAux, ih, List.filter_cons]
    by_cases c1 : strStartsWith tok loadExtEq = true
    · simp [streamStep, c1]
    · by_cases c2 : strStartsWith tok exceptEq = true
      · simp [streamStep, c1, c2]
      · by_cases c3 : tok = disableExtTok
        · subst c3
          simp [streamStep, (by decide : strStartsWith disableExtTok loadExtEq = false),
            (by decide : strStartsWith disableExtTok exceptEq = false)]
        · simp [streamStep, c1, c2, c3]

theorem parseAux_load (ts : List String) (st : ParsedStream) :
    (parseTokenStreamAux st ts).load =
      st.load ++ (ts.filter (fun t => strStartsWith t loadExtEq)).flatMap
        (fun t => csvItems (dropStr t loadExtEq.toList.length)) := by
  induction ts generalizing st with
  | nil => simp [parseTokenStreamAux]
  | cons tok rest ih =>
    rw [parseTokenStreamAux, ih, List.filter_cons]
    by_cases c1 : strStartsWith tok loadExtEq = true
    · simp [streamStep, c1, appendCSVInto]
    · by_cases c2 : strStartsWith tok exceptEq = true
      · simp [streamStep, c1, c2]
      · by_cases c3 : tok = disableExtTok
        · subst c3
          simp [streamStep, (by decide : strStartsWith disableExtTok loadExtEq = false),
            (by decide : strStartsWith disableExtTok exceptEq = false)]
        · simp [streamStep, c1, c2, c3]

theorem parseAux_except (ts : List String) (st : ParsedStream) :
    (parseTokenStreamAux st ts).exceptList =
      st.exceptList ++ (ts.filter (fun t =>
          !strStartsWith t loadExtEq && strStartsWith t exceptEq)).flatMap
        (fun t => csvItems (dropStr t exceptEq.toList.length)) := by
  induction ts generalizing st with
  | nil => simp [parseTokenStreamAux]
  | cons tok rest ih =>
    rw [parseTokenStreamAux, ih, List.filter_cons]
    by_cases c1 : strStartsWith tok loadExtEq = true
    · simp [streamStep, c1]
    · by_cases c2 : strStartsWith tok exceptEq = true
      · simp [streamStep, c1, c2, appendCSVInto]
      · by_cases c3 : tok = disableExtTok
        · subst c3
          simp [streamStep, (by decide : strStartsWith disableExtTok loadExtEq = false),
            (by decide : strStartsWith disableExtTok exceptEq = false)]
        · simp [streamStep, c1, c2, c3]

theorem parseAux_disableAll (ts : List String) (st : ParsedStream) :
    (parseTokenStreamAux st ts).disableAll =
      if disableExtTok ∈ ts then disableExtTok else st.disableAll := by
  induction ts generalizing st with
  | nil => simp [parseTokenStreamAux]
  | cons tok rest ih =>
    rw [parseTokenStreamAux, ih]
    by_cases c3 : tok = disableExtTok
    · subst c3
      simp only [streamStep, (by decide : strStartsWith disableExtTok loadExtEq = false),
        (by decide : strStartsWith disableExtTok exceptEq = false), Bool.false_eq_true,
        if_false, if_pos rfl, List.mem_cons, true_or, if_true]
      split <;> rfl
    · have hmem : (disableExtTok ∈ tok :: rest) ↔ (disableExtTok ∈ rest) := by
        rw [List.mem_cons]
        constructor
        · rintro (h | h)
          · exact absurd h.symm c3
          · exact h
        · exact Or.inr
      rw [streamStep]
      by_cases c1 : strStartsWith tok loadExtEq = true
      · simp only [c1, if_true]
        simp [hmem]
      · by_cases c2 : strStartsWith tok exceptEq = true
        · simp only [c1, Bool.false_eq_true, if_false, c2, if_true]
          simp [hmem]
        · simp only [c1, c2, Bool.false_eq_true, if_false, c3]
          simp [hmem]

/-- A token cannot carry both the `--disable-extensions-except=` and the
`--load-extension=` prefixes: they diverge at their third character. -/
theorem exceptEq_not_loadExtEq (t : String)
    (h : strStartsWith t exceptEq = true) : strStartsWith t loadExtEq = false := by
  rw [strStartsWith] at h
  rw [strStartsWith]
  have he : exceptEq.toList = '-' :: '-' :: 'd' :: "isable-extensions-except=".toList := rfl
  have hl : loadExtEq.toList = '-' :: '-' :: 'l' :: "oad-extension=".toList := rfl
  rw [he] at h
  rw [hl]
  cases hT : t.toList with
  | nil => rw [hT] at h; simp [List.isPrefixOf] at h
  | cons a l1 =>
    cases l1 with
    | nil => rw [hT] at h; simp [List.isPrefixOf] at h
    | cons b l2 =>
      cases l2 with
      | nil => rw [hT] at h; simp [List.isPrefixOf] at h
      | cons c l3 =>
        rw [hT] at h
        simp only [List.isPrefixOf, Bool.and_eq_true, beq_iff_eq] at h
        obtain ⟨-, -, hc, -⟩ := h
        simp [List.isPrefixOf, ← hc]

theorem parse_nil_components :
    parseTokenStream [] =
      { nonExt := [], load := [], exceptList := [], disableAll := "" } := rfl

/-! ## Claim C6: overlay `--disable-extensions` overrides -/

/-- Claim C6: whenever the overlay token list contains
`--disable-extensions`, the merged output contains `--disable-extensions`
and contains no `--load-extension=…` and no `--disable-extensions-except=…`
token, regardless of the extension lists of either input. -/
theorem mergeFlags_disable_override (base overlay : List String)
    (h : disableExtTok ∈ overlay) :
    disableExtTok ∈ mergeFlags base overlay ∧
    ∀ t ∈ mergeFlags base overlay,
      strStartsWith t loadExtEq = false ∧ strStartsWith t exceptEq = false := by
  have hr : (parseTokenStream overlay).disableAll = disableExtTok := by
    rw [parseTokenStream, parseAux_disableAll, if_pos h]
  have hm : mergeFlags base overlay =
      dedupeSkipEmpty ((parseTokenStream base).nonExt ++
        (parseTokenStream overlay).nonExt ++ [disableExtTok]) := by
    rw [mergeFlags]
    simp only [hr]
    rw [if_pos (by decide : ¬ disableExtTok = "")]
  rw [hm]
  constructor
  · rw [mem_dedupeSkipEmpty]
    exact ⟨by simp, by decide⟩
  · intro t ht
    rw [mem_dedupeSkipEmpty] at ht
    have hcases := ht.1
    rw [List.append_assoc, List.mem_append, List.mem_append] at hcases
    have hnx : ∀ ts : List String, t ∈ (parseTokenStream ts).nonExt →
        strStartsWith t loadExtEq = false ∧ strStartsWith t exceptEq = false := by
      intro ts hts
      rw [parseTokenStream, parseAux_nonExt] at hts
      simp only [List.nil_append] at hts
      have hpred := List.of_mem_filter hts
      simp only [Bool.and_eq_true, Bool.not_eq_true'] at hpred
      exact ⟨hpred.1.1, hpred.1.2⟩
    rcases hcases with hb | ho | hd
    · exact hnx base hb
    · exact hnx overlay ho
    · rcases List.mem_singleton.mp hd with rfl
      exact ⟨by decide, by decide⟩

theorem mergeFlags_disable_override_witness :
    disableExtTok ∈ ["--disable-extensions"] ∧
    (disableExtTok ∈ mergeFlags ["--load-extension=/e1", "--foo"] ["--disable-extensions"] ∧
     ∀ t ∈ mergeFlags ["--load-extension=/e1", "--foo"] ["--disable-extensions"],
       strStartsWith t loadExtEq = false ∧ strStartsWith t exceptEq = false) :=
  ⟨by decide,
   mergeFlags_disable_override ["--load-extension=/e1", "--foo"] ["--disable-extensions"]
     (by decide)⟩

/-! ## Claim C7: merging with an empty overlay -/

/-- Claim C7 (counterexample): `merge(existing, []) == existing` fails as
token sets: when `existing` holds `--disable-extensions` together with a
`--load-extension=…` token, the merge keeps only `--disable-extensions`
and drops the load token. -/
theorem mergeFlags_empty_overlay_not_identity :
    mergeFlags ["--disable-extensions", "--load-extension=/a"] [] =
      ["--disable-extensions"] ∧
    "--load-extension=/a" ∈ ["--disable-extensions", "--load-extension=/a"] ∧
    "--load-extension=/a" ∉ mergeFlags ["--disable-extensions", "--load-extension=/a"] [] := by
  exact ⟨by decide, by decide, by decide⟩

theorem bool_not_eq_true_to_false {b : Bool} (h : ¬ b = true) : b = false := by
  cases b
  · rfl
  · exact absurd rfl h

theorem mergeFlags_eq (bT rT : List String) :
    mergeFlags bT rT =
      dedupeSkipEmpty ((parseTokenStream bT).nonExt ++ (parseTokenStream rT).nonExt ++
        ((if (parseTokenStream rT).disableAll ≠ "" then [(parseTokenStream rT).disableAll]
          else
            (if (parseTokenStream bT).disableAll ≠ "" ∧ (parseTokenStream rT).load = []
             then [(parseTokenStream bT).disableAll]
             else
               if unionTokens (parseTokenStream bT).load (parseTokenStream rT).load ≠ []
               then [loadExtEq ++ joinComma
                 (unionTokens (parseTokenStream bT).load (parseTokenStream rT).load)]
               else []) ++
            (if unionTokens (parseTokenStream bT).exceptList (parseTokenStream rT).exceptList ≠ []
             then [exceptEq ++ joinComma
               (unionTokens (parseTokenStream bT).exceptList (parseTokenStream rT).exceptList)]
             else [])))) := rfl

theorem mem_existing_split (existing : List String) (hd : disableExtTok ∉ existing)
    (t : String) :
    t ∈ existing ↔
      (t ∈ existing.filter (fun t =>
          !strStartsWith t loadExtEq && !strStartsWith t exceptEq &&
            !(decide (t = disableExtTok))) ∨
       t ∈ existing.filter (fun t => strStartsWith t loadExtEq) ∨
       t ∈ existing.filter (fun t => strStartsWith t exceptEq)) := by
  constructor
  · intro hmem
    by_cases hl : strStartsWith t loadExtEq = true
    · exact Or.inr (Or.inl (List.mem_filter.mpr ⟨hmem, hl⟩))
    · by_cases he2 : strStartsWith t exceptEq = true
      · exact Or.inr (Or.inr (List.mem_filter.mpr ⟨hmem, he2⟩))
      · refine Or.inl (List.mem_filter.mpr ⟨hmem, ?_⟩)
        rw [bool_not_eq_true_to_false hl, bool_not_eq_true_to_false he2]
        have ht3 : ¬ t = disableExtTok := fun hEq => hd (hEq ▸ hmem)
        simp [ht3]
  · rintro (h | h | h) <;> exact List.mem_of_mem_filter h

theorem mergeFlags_parts_closing (existing : List String) (hd : disableExtTok ∉ existing)
    (hm : mergeFlags existing [] = dedupeSkipEmpty
      (existing.filter (fun t =>
          !strStartsWith t loadExtEq && !strStartsWith t exceptEq &&
            !(decide (t = disableExtTok))) ++
        (existing.filter (fun t => strStartsWith t loadExtEq) ++
         existing.filter (fun t => strStartsWith t exceptEq)))) :
    ∀ t, t ∈ mergeFlags existing [] ↔ t ∈ existing ∧ t ≠ "" := by
  intro t
  rw [hm, mem_dedupeSkipEmpty, List.mem_append, List.mem_append]
  constructor
  · rintro ⟨hmem, hne⟩
    exact ⟨(mem_existing_split existing hd t).mpr hmem, hne⟩
  · rintro ⟨hmem, hne⟩
    exact ⟨(mem_existing_split existing hd t).mp hmem, hne⟩

theorem loadPart_eq (existing : List String)
    (hloadU : (existing.filter (fun t => strStartsWith t loadExtEq)).length ≤ 1)
    (hloadN : ∀ t ∈ existing, strStartsWith t loadExtEq = true →
      loadExtEq ++ joinComma (dedupeSkipEmpty (csvItems (dropStr t loadExtEq.toList.length))) = t ∧
      t ≠ loadExtEq) :
    (if unionTokens (parseTokenStream existing).load [] ≠ []
     then [loadExtEq ++ joinComma (unionTokens (parseTokenStream existing).load [])]
     else []) = existing.filter (fun t => strStartsWith t loadExtEq) := by
  have hLoad : (parseTokenStream existing).load =
      (existing.filter (fun t => strStartsWith t loadExtEq)).flatMap
        (fun t => csvItems (dropStr t loadExtEq.toList.length)) := by
    rw [parseTokenStream, parseAux_load]
    rfl
  rcases hlf : existing.filter (fun t => strStartsWith t loadExtEq) with _ | ⟨t0, lrest⟩
  · have hml : unionTokens (parseTokenStream existing).load [] = [] := by
      rw [hLoad, hlf]
      rfl
    rw [if_neg (by rw [hml]; exact fun h => h rfl)]
  · have hl0 : lrest = [] := by
      rw [hlf] at hloadU
      simp only [List.length_cons] at hloadU
      exact List.length_eq_zero.mp (by omega)
    subst hl0
    have ht0f : t0 ∈ existing.filter (fun t => strStartsWith t loadExtEq) := by
      rw [hlf]
      exact List.mem_cons_self _ _
    have ht0mem : t0 ∈ existing := (List.mem_filter.mp ht0f).1
    have ht0pred : strStartsWith t0 loadExtEq = true := (List.mem_filter.mp ht0f).2
    obtain ⟨hjoin, hne0⟩ := hloadN t0 ht0mem ht0pred
    have hml : unionTokens (parseTokenStream existing).load [] =
        dedupeSkipEmpty (csvItems (dropStr t0 loadExtEq.toList.length)) := by
      rw [hLoad, hlf]
      simp [unionTokens]
    have hmlne : unionTokens (parseTokenStream existing).load [] ≠ [] := by
      rw [hml]
      intro h0
      have hj := hjoin
      rw [h0] at hj
      have h2 : loadExtEq ++ joinComma ([] : List String) = loadExtEq := by decide
      rw [h2] at hj
      exact hne0 hj.symm
    rw [if_pos hmlne, hml, hjoin]

theorem exceptPart_eq (existing : List String)
    (hexcU : (existing.filter (fun t => strStartsWith t exceptEq)).length ≤ 1)
    (hexcN : ∀ t ∈ existing, strStartsWith t exceptEq = true →
      exceptEq ++ joinComma (dedupeSkipEmpty (csvItems (dropStr t exceptEq.toList.length))) = t ∧
      t ≠ exceptEq) :
    (if unionTokens (parseTokenStream existing).exceptList [] ≠ []
     then [exceptEq ++ joinComma (unionTokens (parseTokenStream existing).exceptList [])]
     else []) = existing.filter (fun t => strStartsWith t exceptEq) := by
  have hfe : existing.filter (fun t => !strStartsWith t loadExtEq && strStartsWith t exceptEq)
      = existing.filter (fun t => strStartsWith t exceptEq) := by
    apply List.filter_congr
    intro x _
    by_cases hx : strStartsWith x exceptEq = true
    · rw [hx, exceptEq_not_loadExtEq x hx]
      rfl
    · rw [bool_not_eq_true_to_false hx]
      simp
  have hExc : (parseTokenStream existing).exceptList =
      (existing.filter (fun t => strStartsWith t exceptEq)).flatMap
        (fun t => csvItems (dropStr t exceptEq.toList.length)) := by
    rw [parseTokenStream, parseAux_except, hfe]
    rfl
  rcases hef : existing.filter (fun t => strStartsWith t exceptEq) with _ | ⟨t1, erest⟩
  · have hml : unionTokens (parseTokenStream existing).exceptList [] = [] := by
      rw [hExc, hef]
      rfl
    rw [if_neg (by rw [hml]; exact fun h => h rfl)]
  · have he0 : erest = [] := by
      rw [hef] at hexcU
      simp only [List.length_cons] at hexcU
      exact List.length_eq_zero.mp (by omega)
    subst he0
    have ht1f : t1 ∈ existing.filter (fun t => strStartsWith t exceptEq) := by
      rw [hef]
      exact List.mem_cons_self _ _
    have ht1mem : t1 ∈ existing := (List.mem_filter.mp ht1f).1
    have ht1pred : strStartsWith t1 exceptEq = true := (List.mem_filter.mp ht1f).2
    obtain ⟨hjoin, hne1⟩ := hexcN t1 ht1mem ht1pred
    have hml : unionTokens (parseTokenStream existing).exceptList [] =
        dedupeSkipEmpty (csvItems (dropStr t1 exceptEq.toList.length)) := by
      rw [hExc, hef]
      simp [unionTokens]
    have hmlne : unionTokens (parseTokenStream existing).exceptList [] ≠ [] := by
      rw [hml]
      intro h0
      have hj := hjoin
      rw [h0] at hj
      have h2 : exceptEq ++ joinComma ([] : List String) = exceptEq := by decide
      rw [h2] at hj
      exact hne1 hj.symm
    rw [if_pos hmlne, hml, hjoin]

/-- Claim C7 (amended): merging `existing` with an empty overlay
reproduces `existing` as a token set (up to dropping empty tokens),
provided the extension-related part of `existing` is in the merge's
normal form: at most one `--load-extension=` token and at most one
`--disable-extensions-except=` token, each with a normal-form non-empty
CSV value, and `--disable-extensions` only in the absence of load/except
tokens.  Without these provisos the identity fails, as the
counterexample shows. -/
theorem mergeFlags_empty_overlay_identity (existing : List String)
    (hloadU : (existing.filter (fun t => strStartsWith t loadExtEq)).length ≤ 1)
    (hexcU : (existing.filter (fun t => strStartsWith t exceptEq)).length ≤ 1)
    (hdis : disableExtTok ∈ existing →
      ∀ t ∈ existing, strStartsWith t loadExtEq = false ∧ strStartsWith t exceptEq = false)
    (hloadN : ∀ t ∈ existing, strStartsWith t loadExtEq = true →
      loadExtEq ++ joinComma (dedupeSkipEmpty (csvItems (dropStr t loadExtEq.toList.length))) = t ∧
      t ≠ loadExtEq)
    (hexcN : ∀ t ∈ existing, strStartsWith t exceptEq = true →
      exceptEq ++ joinComma (dedupeSkipEmpty (csvItems (dropStr t exceptEq.toList.length))) = t ∧
      t ≠ exceptEq) :
    ∀ t, t ∈ mergeFlags existing [] ↔ t ∈ existing ∧ t ≠ "" := by
  have hNon : (parseTokenStream existing).nonExt = existing.filter (fun t =>
      !strStartsWith t loadExtEq && !strStartsWith t exceptEq &&
        !(decide (t = disableExtTok))) := by
    rw [parseTokenStream, parseAux_nonExt]
    rfl
  have hDisAll : (parseTokenStream existing).disableAll =
      if disableExtTok ∈ existing then disableExtTok else "" := by
    rw [parseTokenStream, parseAux_disableAll]
  by_cases hd : disableExtTok ∈ existing
  · -- disable-all present: by hypothesis no load/except tokens exist
    have hlf0 : existing.filter (fun t => strStartsWith t loadExtEq) = [] := by
      rw [List.filter_eq_nil_iff]
      intro t ht
      rw [(hdis hd t ht).1]
      decide
    have hef0 : existing.filter (fun t => strStartsWith t exceptEq) = [] := by
      rw [List.filter_eq_nil_iff]
      intro t ht
      rw [(hdis hd t ht).2]
      decide
    have hLoad : (parseTokenStream existing).load = [] := by
      rw [parseTokenStream, parseAux_load]
      rw [hlf0]
      rfl
    have hfeA : existing.filter (fun t => !strStartsWith t loadExtEq && strStartsWith t exceptEq)
        = existing.filter (fun t => strStartsWith t exceptEq) := by
      apply List.filter_congr
      intro x _
      by_cases hx : strStartsWith x exceptEq = true
      · rw [hx, exceptEq_not_loadExtEq x hx]
        rfl
      · rw [bool_not_eq_true_to_false hx]
        simp
    have hExc0 : (parseTokenStream existing).exceptList = [] := by
      rw [parseTokenStream, parseAux_except, hfeA, hef0]
      rfl
    have hDisD : (parseTokenStream existing).disableAll = disableExtTok := by
      rw [hDisAll, if_pos hd]
    have hm : mergeFlags existing [] =
        dedupeSkipEmpty ((parseTokenStream existing).nonExt ++ [disableExtTok]) := by
      rw [mergeFlags_eq, hDisD, hLoad, hExc0]
      simp only [parse_nil_components, List.append_nil, List.nil_append]
      rfl
    intro t
    rw [hm, mem_dedupeSkipEmpty, List.mem_append]
    constructor
    · rintro ⟨hmem | hmem, hne⟩
      · exact ⟨List.mem_of_mem_filter (hNon ▸ hmem), hne⟩
      · rcases List.mem_singleton.mp hmem with rfl
        exact ⟨hd, hne⟩
    · rintro ⟨hmem, hne⟩
      refine ⟨?_, hne⟩
      by_cases ht3 : t = disableExtTok
      · exact Or.inr (List.mem_singleton.mpr ht3)
      · refine Or.inl ?_
        rw [hNon]
        refine List.mem_filter.mpr ⟨hmem, ?_⟩
        rw [(hdis hd t hmem).1, (hdis hd t hmem).2]
        simp [ht3]
  · -- no disable-all token
    have hDis0 : (parseTokenStream existing).disableAll = "" := by
      rw [hDisAll, if_neg hd]
    have hLP := loadPart_eq existing hloadU hloadN
    have hEP := exceptPart_eq existing hexcU hexcN
    apply mergeFlags_parts_closing existing hd
    rw [mergeFlags_eq, hDis0]
    simp only [parse_nil_components]
    rw [hLP, hEP, hNon]
    simp only [List.append_nil, List.nil_append]
    rw [if_neg (by decide : ¬ (("" : String) ≠ ""))]
    rw [if_neg (by decide : ¬ ((("" : String) ≠ "") ∧ True))]


theorem mergeFlags_empty_overlay_identity_witness :
    (["--foo", "--load-extension=/a,/b", "--disable-extensions-except=/x", "--bar=1"].filter
        (fun t => strStartsWith t loadExtEq)).length ≤ 1 ∧
    (["--foo", "--load-extension=/a,/b", "--disable-extensions-except=/x", "--bar=1"].filter
        (fun t => strStartsWith t exceptEq)).length ≤ 1 ∧
    (disableExtTok ∈ ["--foo", "--load-extension=/a,/b", "--disable-extensions-except=/x", "--bar=1"] →
      ∀ t ∈ ["--foo", "--load-extension=/a,/b", "--disable-extensions-except=/x", "--bar=1"],
        strStartsWith t loadExtEq = false ∧ strStartsWith t exceptEq = false) ∧
    (∀ t ∈ ["--foo", "--load-extension=/a,/b", "--disable-extensions-except=/x", "--bar=1"],
      strStartsWith t loadExtEq = true →
      loadExtEq ++ joinComma (dedupeSkipEmpty (csvItems (dropStr t loadExtEq.toList.length))) = t ∧
      t ≠ loadExtEq) ∧
    (∀ t ∈ ["--foo", "--load-extension=/a,/b", "--disable-extensions-except=/x", "--bar=1"],
      strStartsWith t exceptEq = true →
      exceptEq ++ joinComma (dedupeSkipEmpty (csvItems (dropStr t exceptEq.toList.length))) = t ∧
      t ≠ exceptEq) ∧
    (∀ t, t ∈ mergeFlags
        ["--foo", "--load-extension=/a,/b", "--disable-extensions-except=/x", "--bar=1"] [] ↔
      t ∈ ["--foo", "--load-extension=/a,/b", "--disable-extensions-except=/x", "--bar=1"] ∧
      t ≠ "") :=
  ⟨by decide, by decide, by decide, by decide, by decide,
   mergeFlags_empty_overlay_identity
     ["--foo", "--load-extension=/a,/b", "--disable-extensions-except=/x", "--bar=1"]
     (by decide) (by decide) (by decide) (by decide) (by decide)⟩

/-! ## Claim C8: IsRecording is one-way monotone -/

theorem stopped_step_fixed (s : FFmpegRecorder) (e : RecEvent)
    (hs : stoppedState s) : stepEvent s e = s := by
  obtain ⟨hcmd, hexit, hwait⟩ := hs
  cases e with
  | start sp => rw [stepEvent, startRec, if_pos hcmd]
  | waiter code => rw [stepEvent, hwait]; rfl
  | stop => rfl
  | forceStopEv => rfl
  | recording => rfl

theorem stopped_run_fixed (s : FFmpegRecorder) (tr : List RecEvent)
    (hs : stoppedState s) : runEvents s tr = s := by
  induction tr with
  | nil => rfl
  | cons e rest ih =>
    rw [runEvents, List.foldl_cons, stopped_step_fixed s e hs]
    exact ih

theorem recording_or_stopped_step (s : FFmpegRecorder) (e : RecEvent)
    (h : isRecording s = true ∨ stoppedState s) :
    isRecording (stepEvent s e) = true ∨ stoppedState (stepEvent s e) := by
  rcases h with h | h
  · rw [isRecording, Bool.and_eq_true, decide_eq_true_eq] at h
    obtain ⟨hcmd, hexit⟩ := h
    cases e with
    | start sp =>
      rw [stepEvent, startRec, if_pos hcmd]
      exact Or.inl (by rw [isRecording, hcmd]; simpa using hexit)
    | waiter code =>
      rw [stepEvent]
      by_cases hw : s.waiterPending
      · rw [if_pos hw, waiterDone]
        by_cases hc : code < 0
        · refine Or.inl ?_
          rw [isRecording]
          simp only [hcmd]
          simpa using hc
        · exact Or.inr ⟨hcmd, by show (0 : Int) ≤ code; omega, rfl⟩
      · rw [if_neg hw]
        exact Or.inl (by rw [isRecording, hcmd]; simpa using hexit)
    | stop => exact Or.inl (by rw [stepEvent, isRecording, hcmd]; simpa using hexit)
    | forceStopEv => exact Or.inl (by rw [stepEvent, isRecording, hcmd]; simpa using hexit)
    | recording => exact Or.inl (by rw [stepEvent, isRecording, hcmd]; simpa using hexit)
  · rw [stopped_step_fixed s e h]
    exact Or.inr h

theorem recording_or_stopped_run (s : FFmpegRecorder) (tr : List RecEvent)
    (h : isRecording s = true ∨ stoppedState s) :
    isRecording (runEvents s tr) = true ∨ stoppedState (runEvents s tr) := by
  induction tr generalizing s with
  | nil => exact h
  | cons e rest ih =>
    rw [runEvents, List.foldl_cons]
    exact ih (stepEvent s e) (recording_or_stopped_step s e h)

/-- Claim C8: `IsRecording` is one-way monotone for a recorder instance:
in any sequence of operations (Start attempts, the waiter's completion,
Stop, ForceStop, Recording), once `IsRecording` has returned true and a
later call returns false, every subsequent call returns false. -/
theorem isRecording_one_way (s : FFmpegRecorder) (tr tr' : List RecEvent)
    (h1 : isRecording s = true)
    (h2 : isRecording (runEvents s tr) = false) :
    isRecording (runEvents (runEvents s tr) tr') = false := by
  have hP := recording_or_stopped_run s tr (Or.inl h1)
  rcases hP with hP | hP
  · rw [hP] at h2
    exact absurd h2 (by decide)
  · rw [stopped_run_fixed (runEvents s tr) tr' hP]
    exact h2

theorem isRecording_one_way_witness :
    isRecording sampleRunningRecorder = true ∧
    isRecording (runEvents sampleRunningRecorder [.waiter 0]) = false ∧
    isRecording (runEvents (runEvents sampleRunningRecorder [.waiter 0])
      [.start (.ok 6 none), .stop, .waiter (-1), .recording]) = false :=
  ⟨by decide, by decide,
   isRecording_one_way sampleRunningRecorder [.waiter 0]
     [.start (.ok 6 none), .stop, .waiter (-1), .recording]
     (by decide) (by decide)⟩
